import Mathlib

/-!
Verification of the DPHT (Differentially Private Health Tokens) repository.

This file shallowly embeds the protocol core of the two Python sources:

* Generate_QR_Token.py — the TokenData serializer (getByteArray,
  getSignedCertificateByteArray), the randomized-response mechanism
  (output_token) and the simulation/estimator (simulate_DPHT);
* Verify_QR_Token.py — the QR_data payload parser (the __init__ body) and
  verify_signature.

Byte strings are modelled as lists of naturals (each entry one byte); Python
text values are lists of Unicode code points.  Randomized code is embedded by
making every random draw an explicit argument (a Bool per np.random.choice
call) and, separately, by the induced output distribution over the reals.
Operations that can raise a Python exception return Option or Except.
-/

namespace DPHT

/-- Big-endian interpretation of a byte list, the model of Python
int.from_bytes(bs, 'big').  The empty list yields 0, as in Python. -/
def bytesToNat (l : List ℕ) : ℕ := l.foldl (fun acc b => acc * 256 + b) 0

/-- Big-endian digits of n in exactly len bytes (most significant first);
the digit computation behind int.to_bytes(len, 'big'). -/
def bigEndianDigits : ℕ → ℕ → List ℕ
  | 0, _ => []
  | l + 1, n => bigEndianDigits l (n / 256) ++ [n % 256]

/-- Model of Python n.to_bytes(len, 'big'): raises OverflowError (None here)
exactly when n does not fit in len bytes. -/
def natToBytes (n len : ℕ) : Option (List ℕ) :=
  if n < 256 ^ len then some (bigEndianDigits len n) else none

/-- Model of the Python slice l[start:stop] for nonnegative bounds: Python
slicing clamps out-of-range indices and never raises. -/
def pySlice (l : List ℕ) (start stop : ℕ) : List ℕ :=
  (l.drop start).take (stop - start)

/-- A Unicode scalar value: a code point that is not a surrogate.  Python
str.encode('utf-8') succeeds exactly on strings of scalar values. -/
def isUtf8Scalar (c : ℕ) : Bool :=
  decide (c < 1114112 ∧ (c < 55296 ∨ 57343 < c))

/-- UTF-8 encoding of one code point (1 to 4 bytes). -/
def utf8EncodeChar (c : ℕ) : List ℕ :=
  if c < 128 then [c]
  else if c < 2048 then [192 + c / 64, 128 + c % 64]
  else if c < 65536 then [224 + c / 4096, 128 + c / 64 % 64, 128 + c % 64]
  else [240 + c / 262144, 128 + c / 4096 % 64, 128 + c / 64 % 64, 128 + c % 64]

/-- UTF-8 encoding of a string of code points, the model of
bytearray(s, 'utf-8') on a string of scalar values. -/
def utf8Encode : List ℕ → List ℕ
  | [] => []
  | c :: cs => utf8EncodeChar c ++ utf8Encode cs

/-- Decode one UTF-8 code point from the front of a byte list, validating
continuation bytes, overlong forms and surrogates as Python's strict
bytes.decode('utf-8') does; none models UnicodeDecodeError. -/
def utf8DecodeOne : List ℕ → Option (ℕ × List ℕ)
  | [] => none
  | b0 :: rest =>
    if b0 < 128 then some (b0, rest)
    else if b0 < 194 then none
    else if b0 < 224 then
      match rest with
      | b1 :: rest1 =>
        if 128 ≤ b1 ∧ b1 < 192 then some ((b0 - 192) * 64 + (b1 - 128), rest1)
        else none
      | [] => none
    else if b0 < 240 then
      match rest with
      | b1 :: b2 :: rest2 =>
        if (128 ≤ b1 ∧ b1 < 192) ∧ (128 ≤ b2 ∧ b2 < 192) then
          let c := (b0 - 224) * 4096 + (b1 - 128) * 64 + (b2 - 128)
          if 2048 ≤ c ∧ (c < 55296 ∨ 57343 < c) then some (c, rest2) else none
        else none
      | _ => none
    else if b0 < 245 then
      match rest with
      | b1 :: b2 :: b3 :: rest3 =>
        if (128 ≤ b1 ∧ b1 < 192) ∧ (128 ≤ b2 ∧ b2 < 192) ∧ (128 ≤ b3 ∧ b3 < 192) then
          let c := (b0 - 240) * 262144 + (b1 - 128) * 4096 + (b2 - 128) * 64 + (b3 - 128)
          if 65536 ≤ c ∧ c < 1114112 then some (c, rest3) else none
        else none
      | _ => none
    else none

/-- Fuel-indexed UTF-8 decoding loop; each step consumes at least one byte,
so fuel equal to the list length suffices. -/
def utf8DecodeFuel : ℕ → List ℕ → Option (List ℕ)
  | _, [] => some []
  | 0, _ :: _ => none
  | fuel + 1, l =>
    match utf8DecodeOne l with
    | some (c, rest) => (utf8DecodeFuel fuel rest).map (fun cs => c :: cs)
    | none => none

/-- Model of bytes.decode('utf-8') (strict), as called by
QR_data.get_user_token; none models UnicodeDecodeError. -/
def utf8Decode (l : List ℕ) : Option (List ℕ) := utf8DecodeFuel l.length l

/-- Model of TokenData.getByteArray (Generate_QR_Token.py lines 30-36) on a
token string given as its list of code points.  Line 31 runs first:
len(user_token).to_bytes(1, 'big') raises OverflowError (None) when the
character count exceeds 255; line 32 then UTF-8-encodes the string, which
raises UnicodeEncodeError (None) on non-scalar code points.  Note the length
prefix is the character count while the payload is the UTF-8 bytes. -/
def getByteArray (v : List ℕ) : Option (List ℕ) :=
  match natToBytes v.length 1 with
  | none => none
  | some user_token_length =>
    if v.all isUtf8Scalar then some (user_token_length ++ utf8Encode v)
    else none

/-- Model of the serialization step of TokenData.getSignedCertificateByteArray
(Generate_QR_Token.py lines 40-45), with the externally produced signature
bytes passed in: len(cert_sign).to_bytes(2, 'big') raises OverflowError
(None) when the signature exceeds 65535 bytes, and the signed payload is
cert_bytes + cert_sign_len + cert_sign. -/
def attachSignature (cert_bytes s : List ℕ) : Option (List ℕ) :=
  match natToBytes s.length 2 with
  | none => none
  | some cert_sign_len => some (cert_bytes ++ cert_sign_len ++ s)

/-- Model of QR_data.__init__ (Verify_QR_Token.py lines 20-30) on the bytes
obtained after base85 decoding.  Each field is a Python slice of raw_data and
int.from_bytes accepts short (even empty) input, so no statement of the body
can raise: the Option result (always some) records the absence of any failure
path.  Returns (user_token, raw_verify_bytes, token_sign_bytes). -/
def qrParse (raw : List ℕ) : Option (List ℕ × List ℕ × List ℕ) :=
  let user_token_length := bytesToNat (pySlice raw 0 1)
  let user_token := pySlice raw 1 (1 + user_token_length)
  let readPos := 1 + user_token_length
  let raw_verify_bytes := pySlice raw 0 readPos
  let token_sign_length := bytesToNat (pySlice raw readPos (readPos + 2))
  let token_sign_bytes := pySlice raw (readPos + 2) (readPos + 2 + token_sign_length)
  some (user_token, raw_verify_bytes, token_sign_bytes)

/-- Python exceptions that the embedded code can raise. -/
inductive PyErr
  | cryptoError
  | zeroDivisionError
  deriving DecidableEq

/-- Model of the external pyOpenSSL primitive OpenSSL.crypto.verify as
documented: it returns None when the signature validates over the data and
raises OpenSSL.crypto.Error otherwise.  The abstract cryptographic outcome is
the Bool argument; the returned value on success is Python's None, modelled
as (none : Option Nat). -/
def crypto_verify (valid : Bool) : Except PyErr (Option ℕ) :=
  if valid then .ok none else .error .cryptoError

/-- Model of QR_data.verify_signature (Verify_QR_Token.py lines 41-47):
cert_verify = OpenSSL.crypto.verify(...) (any exception propagates), then
True is returned if cert_verify is None and False otherwise. -/
def verify_signature (valid : Bool) : Except PyErr Bool :=
  match crypto_verify valid with
  | .error e => .error e
  | .ok cert_verify => if cert_verify = none then .ok true else .ok false

/-- Model of the deterministic core of output_token (Generate_QR_Token.py
lines 48-61) with the two np.random.choice draws made explicit: coin0 is the
biased first coin (1 = true), coin1 the second coin np.random.choice([0,1],
p=[1-1/k, 1/k]) (true = the outcome 1).  If coin0 is 1 the token is the real
test_result, otherwise the token is the second coin's outcome. -/
def output_token (test_result : ℕ) (coin0 coin1 : Bool) : ℕ :=
  if coin0 then test_result else if coin1 then 1 else 0

/-- The bias of the first coin in output_token (Generate_QR_Token.py line
50): output_correct = (exp(epsilon) - 1) / (exp(epsilon) + k - 1). -/
noncomputable def output_correct (ε : ℝ) (k : ℕ) : ℝ :=
  (Real.exp ε - 1) / (Real.exp ε + k - 1)

/-- Probability that a Bool-valued coin of bias p (probability of true)
comes up as b. -/
noncomputable def coinProb (p : ℝ) (b : Bool) : ℝ := if b then p else 1 - p

/-- Output distribution of output_token: the probability that the token for
true class t equals o, summing over the two independent coin draws, with
coin0 of bias output_correct and coin1 of bias 1/k (Generate_QR_Token.py
lines 48-61). -/
noncomputable def outputProb (t : ℕ) (ε : ℝ) (k : ℕ) (o : ℕ) : ℝ :=
  ∑ c0 : Bool, ∑ c1 : Bool,
    coinProb (output_correct ε k) c0 * coinProb (1 / (k : ℝ)) c1 *
      (if output_token t c0 c1 = o then 1 else 0)

/-- Per-user randomness consumed by one iteration of simulate_DPHT: the
np.random.choice([0,1], p=priorP) status draw (statusCoin true = status 1)
and the two coins of the output_token call. -/
structure UserDraw where
  statusCoin : Bool
  coin0 : Bool
  coin1 : Bool

/-- The user's true antibody status as drawn by np.random.choice([0,1],
size=(nUsers,), p=priorP) (Generate_QR_Token.py line 115): always 0 or 1,
whatever the configured number of classes k. -/
def userStatus (d : UserDraw) : ℕ := if d.statusCoin then 1 else 0

/-- The user's randomised token (Generate_QR_Token.py line 123). -/
def userToken (d : UserDraw) : ℕ := output_token (userStatus d) d.coin0 d.coin1

/-- Model of np.count_nonzero on a list of naturals. -/
def countNonzero (l : List ℕ) : ℕ := (l.filter (fun b => b != 0)).length

/-- The bias-corrected estimate computed by simulate_DPHT
(Generate_QR_Token.py lines 129-133): x = count_nonzero(tokens)/size,
min_prob = 1/(exp(epsilon)+k-1), max_prob = exp(epsilon)*min_prob, and the
raw, unclipped value (x - min_prob)/(max_prob - min_prob). -/
noncomputable def dpht_estimate (tokens : List ℕ) (ε : ℝ) (k : ℕ) : ℝ :=
  ((countNonzero tokens : ℝ) / (tokens.length : ℝ) - 1 / (Real.exp ε + k - 1)) /
    (Real.exp ε * (1 / (Real.exp ε + k - 1)) - 1 / (Real.exp ε + k - 1))

/-- Model of simulate_DPHT (Generate_QR_Token.py lines 113-144) with the
per-user random draws passed explicitly (draws.length = nUsers).  When
nUsers = 0 the division x = np.count_nonzero(token_bits)/float(token_bits.size)
on line 129 divides a Python int by float(0) and raises ZeroDivisionError;
otherwise the function returns error = abs(real_x - e_x). -/
noncomputable def simulate_DPHT (draws : List UserDraw) (ε : ℝ) (k : ℕ) :
    Except PyErr ℝ :=
  if draws.length = 0 then .error .zeroDivisionError
  else
    let tokens := draws.map userToken
    let e_x := dpht_estimate tokens ε k
    let real_x := (countNonzero (draws.map userStatus) : ℝ) /
      ((draws.map userStatus).length : ℝ)
    .ok |real_x - e_x|

/-! ## Distribution of output_token -/

/-- Closed form of the output distribution: with probability output_correct
the true class, otherwise the second coin's outcome (1 with probability 1/k,
0 with probability 1 - 1/k). -/
theorem outputProb_eq (t : ℕ) (ε : ℝ) (k : ℕ) (o : ℕ) :
    outputProb t ε k o =
      output_correct ε k * (if t = o then 1 else 0) +
        (1 - output_correct ε k) *
          ((1 / (k : ℝ)) * (if 1 = o then 1 else 0) +
            (1 - 1 / (k : ℝ)) * (if 0 = o then 1 else 0)) := by
  simp only [outputProb, Fintype.sum_bool, coinProb, output_token,
    if_true, if_false, Bool.false_eq_true]
  ring

/-- The denominator exp(epsilon) + k - 1 is positive whenever k is at least
one. -/
theorem denom_pos (ε : ℝ) (k : ℕ) (hk : 1 ≤ k) : 0 < Real.exp ε + k - 1 := by
  have h1 : (1 : ℝ) ≤ (k : ℝ) := by exact_mod_cast hk
  have h2 : 0 < Real.exp ε := Real.exp_pos ε
  linarith

/-- Probability of emitting 0 on true class 0. -/
theorem outputProb_zero_zero (ε : ℝ) (k : ℕ) (hk : 2 ≤ k) :
    outputProb 0 ε k 0 = (Real.exp ε + k - 2) / (Real.exp ε + k - 1) := by
  have hD := denom_pos ε k (by omega)
  have hk0 : (k : ℝ) ≠ 0 := by
    have : (2 : ℝ) ≤ (k : ℝ) := by exact_mod_cast hk
    linarith
  rw [outputProb_eq]
  simp only [output_correct]
  norm_num
  field_simp
  ring

/-- Probability of emitting 0 on true class 1. -/
theorem outputProb_one_zero (ε : ℝ) (k : ℕ) (hk : 2 ≤ k) :
    outputProb 1 ε k 0 = ((k : ℝ) - 1) / (Real.exp ε + k - 1) := by
  have hD := denom_pos ε k (by omega)
  have hk0 : (k : ℝ) ≠ 0 := by
    have : (2 : ℝ) ≤ (k : ℝ) := by exact_mod_cast hk
    linarith
  rw [outputProb_eq]
  simp only [output_correct]
  norm_num
  field_simp
  ring

/-- Probability of emitting 1 on true class 0. -/
theorem outputProb_zero_one (ε : ℝ) (k : ℕ) (hk : 2 ≤ k) :
    outputProb 0 ε k 1 = 1 / (Real.exp ε + k - 1) := by
  have hD := denom_pos ε k (by omega)
  have hk0 : (k : ℝ) ≠ 0 := by
    have : (2 : ℝ) ≤ (k : ℝ) := by exact_mod_cast hk
    linarith
  rw [outputProb_eq]
  simp only [output_correct]
  norm_num
  field_simp
  ring

/-- Probability of emitting 1 on true class 1. -/
theorem outputProb_one_one (ε : ℝ) (k : ℕ) (hk : 2 ≤ k) :
    outputProb 1 ε k 1 = Real.exp ε / (Real.exp ε + k - 1) := by
  have hD := denom_pos ε k (by omega)
  have hk0 : (k : ℝ) ≠ 0 := by
    have : (2 : ℝ) ≤ (k : ℝ) := by exact_mod_cast hk
    linarith
  rw [outputProb_eq]
  simp only [output_correct]
  norm_num
  field_simp
  ring

/-- Classes 2 and beyond are never emitted for a binary true class. -/
theorem outputProb_of_two_le (t : ℕ) (ε : ℝ) (k : ℕ) (o : ℕ)
    (ht : t ≤ 1) (ho : 2 ≤ o) : outputProb t ε k o = 0 := by
  have h1 : t ≠ o := by omega
  have h2 : (1 : ℕ) ≠ o := by omega
  have h3 : (0 : ℕ) ≠ o := by omega
  rw [outputProb_eq]
  simp [h1, h2, h3]

/-! ## C1: the epsilon-differential-privacy bound -/

/-- C1 counterexample: the claimed bound P(respond(a)=o) ≤ exp(epsilon) *
P(respond(b)=o) for all true classes a, b in [0,k) fails at epsilon = 1,
k = 3, a = 2, b = 0, o = 2: output_token emits class 2 with probability
output_correct > 0 when the true class is 2, but with probability 0 when the
true class is 0, because the second coin only ever produces 0 or 1. -/
theorem privacy_bound_cex :
    ¬ outputProb 2 1 3 2 ≤ Real.exp 1 * outputProb 0 1 3 2 := by
  have hE : 2 ≤ Real.exp 1 := by
    have h := Real.add_one_le_exp (1 : ℝ)
    linarith
  have h3 : (2 : ℝ) ≤ ((3 : ℕ) : ℝ) := by norm_num
  have hD := denom_pos 1 3 (by omega)
  have hz : outputProb 0 1 3 2 = 0 :=
    outputProb_of_two_le 0 1 3 2 (by omega) (by omega)
  have hp : outputProb 2 1 3 2 = output_correct 1 3 := by
    rw [outputProb_eq]
    norm_num
  have hpos : 0 < output_correct 1 3 := by
    unfold output_correct
    apply div_pos (by linarith)
    push_cast
    push_cast at hD
    linarith
  rw [hz, hp, mul_zero]
  linarith

/-- C1 amended: for binary true classes a, b in {0, 1} (the documented domain
of output_token: the source comment states the test result is 0 or 1), every
finite epsilon > 0, every k ≥ 2 and every output class o, the probability of
producing o from a is at most exp(epsilon) times the probability of producing
o from b. -/
theorem privacy_bound_binary (ε : ℝ) (k a b o : ℕ) (hε : 0 < ε) (hk : 2 ≤ k)
    (ha : a ≤ 1) (hb : b ≤ 1) :
    outputProb a ε k o ≤ Real.exp ε * outputProb b ε k o := by
  have hE : 1 < Real.exp ε := by
    have h := Real.add_one_le_exp ε
    linarith
  have hK : (2 : ℝ) ≤ (k : ℝ) := by exact_mod_cast hk
  have hD := denom_pos ε k (by omega)
  rcases Nat.lt_or_ge o 2 with ho | ho
  · have ho' : o ≤ 1 := by omega
    interval_cases a <;> interval_cases b <;> interval_cases o
    · rw [outputProb_zero_zero ε k hk]
      rw [← mul_div_assoc, div_le_div_iff hD hD]
      nlinarith [mul_nonneg (by linarith : (0:ℝ) ≤ Real.exp ε - 1)
        (by linarith : (0:ℝ) ≤ Real.exp ε + (k:ℝ) - 2)]
    · rw [outputProb_zero_one ε k hk]
      rw [← mul_div_assoc, div_le_div_iff hD hD]
      nlinarith [mul_pos (by linarith : (0:ℝ) < Real.exp ε - 1)
        (by linarith : (0:ℝ) < Real.exp ε + 1)]
    · rw [outputProb_zero_zero ε k hk, outputProb_one_zero ε k hk]
      rw [← mul_div_assoc, div_le_div_iff hD hD]
      nlinarith [mul_nonneg (by linarith : (0:ℝ) ≤ Real.exp ε - 1)
        (by linarith : (0:ℝ) ≤ (k:ℝ) - 2)]
    · rw [outputProb_zero_one ε k hk, outputProb_one_one ε k hk]
      rw [← mul_div_assoc, div_le_div_iff hD hD]
      nlinarith [mul_pos (by linarith : (0:ℝ) < Real.exp ε - 1)
        (by linarith : (0:ℝ) < Real.exp ε + 1)]
    · rw [outputProb_one_zero ε k hk, outputProb_zero_zero ε k hk]
      rw [← mul_div_assoc, div_le_div_iff hD hD]
      nlinarith [sq_nonneg (Real.exp ε - 1),
        mul_nonneg (by linarith : (0:ℝ) ≤ (k:ℝ))
          (by linarith : (0:ℝ) ≤ Real.exp ε - 1)]
    · rw [outputProb_one_one ε k hk, outputProb_zero_one ε k hk]
      rw [← mul_div_assoc, div_le_div_iff hD hD]
      nlinarith
    · rw [outputProb_one_zero ε k hk]
      rw [← mul_div_assoc, div_le_div_iff hD hD]
      nlinarith [mul_nonneg (by linarith : (0:ℝ) ≤ Real.exp ε - 1)
        (by linarith : (0:ℝ) ≤ (k:ℝ) - 1)]
    · rw [outputProb_one_one ε k hk]
      rw [← mul_div_assoc, div_le_div_iff hD hD]
      nlinarith [mul_pos (by linarith : (0:ℝ) < Real.exp ε - 1)
        (by linarith : (0:ℝ) < Real.exp ε)]
  · rw [outputProb_of_two_le a ε k o ha ho, outputProb_of_two_le b ε k o hb ho,
      mul_zero]

/-- Witness: the amended privacy bound instantiated at epsilon = 1, k = 2,
a = 0, b = 1, o = 0. -/
theorem privacy_bound_binary_witness :
    outputProb 0 1 2 0 ≤ Real.exp 1 * outputProb 1 1 2 0 :=
  privacy_bound_binary 1 2 0 1 0 (by norm_num) (by norm_num) (by norm_num)
    (by norm_num)

/-! ## C2: the per-class output probabilities -/

/-- C2 counterexample: at epsilon = 1, k = 3, true class 0 and output class
2, the claimed probability pKeep*[2 = 0] + (1 - pKeep)/3 is strictly
positive, while output_token never emits class 2 (its second coin draws from
{0, 1} with p = [1 - 1/k, 1/k], not uniformly over all k classes). -/
theorem response_distribution_cex :
    outputProb 0 1 3 2 ≠
      output_correct 1 3 * (if (2 : ℕ) = 0 then 1 else 0) +
        (1 - output_correct 1 3) / 3 := by
  have hD := denom_pos 1 3 (by omega)
  have hp1 : output_correct 1 3 < 1 := by
    unfold output_correct
    rw [div_lt_one hD]
    push_cast
    linarith
  have hz : outputProb 0 1 3 2 = 0 :=
    outputProb_of_two_le 0 1 3 2 (by omega) (by omega)
  rw [hz, if_neg (by omega : (2 : ℕ) ≠ 0), mul_zero, zero_add]
  have hpos : (0 : ℝ) < (1 - output_correct 1 3) / 3 :=
    div_pos (by linarith) (by norm_num)
  intro h
  linarith [hpos, h.symm]

/-- C2 amended: output_token keeps the true class with probability
output_correct = (exp(epsilon) - 1)/(exp(epsilon) + k - 1) and otherwise
emits the second coin's outcome, which is 1 with probability 1/k and 0 with
probability 1 - 1/k (not a uniform draw over all k classes); for k = 2 and
binary outputs this coincides with the claimed formula
pKeep*[c = trueClass] + (1 - pKeep)/2. -/
theorem response_distribution (ε : ℝ) (k : ℕ) (hk : 2 ≤ k) (t o : ℕ) :
    outputProb t ε k o =
      output_correct ε k * (if t = o then 1 else 0) +
        (1 - output_correct ε k) *
          ((1 / (k : ℝ)) * (if 1 = o then 1 else 0) +
            (1 - 1 / (k : ℝ)) * (if 0 = o then 1 else 0)) ∧
    (o ≤ 1 →
      outputProb t ε 2 o =
        output_correct ε 2 * (if t = o then 1 else 0) +
          (1 - output_correct ε 2) * (1 / 2)) := by
  refine ⟨outputProb_eq t ε k o, fun ho => ?_⟩
  rw [outputProb_eq]
  interval_cases o <;> norm_num

/-- Witness: the amended distribution at epsilon = 1, k = 2, true class 1,
output class 0. -/
theorem response_distribution_witness :
    outputProb 1 1 2 0 =
      output_correct 1 2 * (if (1 : ℕ) = 0 then 1 else 0) +
        (1 - output_correct 1 2) * (1 / 2) :=
  (response_distribution 1 2 (by norm_num) 1 0).2 (by norm_num)

/-! ## C8: parameter validation -/

/-- C8 counterexample: at the non-positive epsilon = 0 (and k = 2) the
mechanism does not fail at all: output_correct evaluates to 0, a valid coin
bias, and output_token produces the noisy classes 0 and 1 with probability
1/2 each, so a noisy class is produced with total probability 1 and no
InvalidParameterError exists anywhere in the code. -/
theorem no_parameter_validation_cex :
    output_correct 0 2 = 0 ∧ outputProb 1 0 2 1 = 1 / 2 ∧
      outputProb 1 0 2 0 = 1 / 2 := by
  have h1 : output_correct 0 2 = 0 := by
    unfold output_correct
    rw [Real.exp_zero]
    norm_num
  refine ⟨h1, ?_, ?_⟩ <;> rw [outputProb_eq, h1] <;> norm_num

/-- C8 amended: output_token validates nothing and raises no
InvalidParameterError.  For every k ≥ 2 and every epsilon ≥ 0 — including
the non-positive boundary epsilon = 0 the claim says must be rejected — the
coin bias output_correct lies in [0, 1] and a noisy class in {0, 1} is
produced with total probability 1.  Only epsilon < 0 makes the code fail,
and then merely because np.random.choice rejects the negative probability
output_correct with a ValueError. -/
theorem no_parameter_validation (ε : ℝ) (k : ℕ) (hk : 2 ≤ k) :
    (0 ≤ ε → 0 ≤ output_correct ε k ∧ output_correct ε k ≤ 1 ∧
      ∀ t : ℕ, t ≤ 1 → outputProb t ε k 0 + outputProb t ε k 1 = 1) ∧
    (ε < 0 → output_correct ε k < 0) := by
  have hD := denom_pos ε k (by omega)
  have hK : (2 : ℝ) ≤ (k : ℝ) := by exact_mod_cast hk
  constructor
  · intro hε
    have hE : 1 ≤ Real.exp ε := by
      have h := Real.add_one_le_exp ε
      linarith
    refine ⟨div_nonneg (by linarith) (le_of_lt hD), ?_, ?_⟩
    · rw [output_correct, div_le_one hD]
      linarith
    · intro t ht
      interval_cases t
      · rw [outputProb_zero_zero ε k hk, outputProb_zero_one ε k hk,
          div_add_div_same, div_eq_one_iff_eq (ne_of_gt hD)]
        ring
      · rw [outputProb_one_zero ε k hk, outputProb_one_one ε k hk,
          div_add_div_same, div_eq_one_iff_eq (ne_of_gt hD)]
        ring
  · intro hε
    have hE : Real.exp ε < 1 := by
      calc Real.exp ε < Real.exp 0 := Real.exp_lt_exp.mpr hε
        _ = 1 := Real.exp_zero
    exact div_neg_of_neg_of_pos (by linarith) hD

/-- Witness: at epsilon = 0, k = 2, true class 1 the output probabilities
sum to 1, and at epsilon = -1 the first coin's bias is negative. -/
theorem no_parameter_validation_witness :
    outputProb 1 0 2 0 + outputProb 1 0 2 1 = 1 ∧
      output_correct (-1) 2 < 0 :=
  ⟨((no_parameter_validation 0 2 (by norm_num)).1 le_rfl).2.2 1 le_rfl,
    (no_parameter_validation (-1) 2 (by norm_num)).2 (by norm_num)⟩

/-! ## C10: only classes 0 and 1 ever occur -/

/-- C10: for a binary true class the mechanism never emits any class other
than 0 or 1 — outputProb vanishes on every o ≥ 2, whatever k — the
deterministic core of output_token only returns values at most 1, and every
simulated user's true status, drawn by np.random.choice([0,1], p=priorP), is
0 or 1 regardless of the configured k. -/
theorem binary_support (ε : ℝ) (k t o : ℕ) (hk : 2 ≤ k) (ht : t ≤ 1)
    (ho : 2 ≤ o) :
    outputProb t ε k o = 0 ∧
      (∀ c0 c1 : Bool, output_token t c0 c1 ≤ 1) ∧
      ∀ d : UserDraw, userStatus d ≤ 1 := by
  refine ⟨outputProb_of_two_le t ε k o ht ho, ?_, ?_⟩
  · intro c0 c1
    unfold output_token
    cases c0 <;> cases c1 <;> simp [ht]
  · intro d
    unfold userStatus
    cases d.statusCoin <;> simp

/-- Witness: the support facts at epsilon = 1, k = 5, true class 1, output
class 3, with concrete coin draws. -/
theorem binary_support_witness :
    outputProb 1 1 5 3 = 0 ∧ output_token 1 false true ≤ 1 ∧
      userStatus ⟨true, false, false⟩ ≤ 1 :=
  ⟨(binary_support 1 5 1 3 (by norm_num) (by norm_num) (by norm_num)).1,
    (binary_support 1 5 1 3 (by norm_num) (by norm_num) (by norm_num)).2.1
      false true,
    (binary_support 1 5 1 3 (by norm_num) (by norm_num) (by norm_num)).2.2
      ⟨true, false, false⟩⟩

/-! ## Serialization lemmas -/

/-- An ASCII code point encodes to itself as a single UTF-8 byte. -/
theorem utf8Encode_ascii (v : List ℕ) (h : ∀ c ∈ v, c < 128) :
    utf8Encode v = v := by
  induction v with
  | nil => rfl
  | cons c cs ih =>
    rw [utf8Encode, utf8EncodeChar,
      if_pos (h c (List.mem_cons_self c cs)),
      ih (fun x hx => h x (List.mem_cons_of_mem c hx))]
    rfl

/-- Decoding one code point from an ASCII byte consumes exactly that byte. -/
theorem utf8DecodeOne_ascii (c : ℕ) (hc : c < 128) (r : List ℕ) :
    utf8DecodeOne (c :: r) = some (c, r) := by
  simp [utf8DecodeOne, hc]

/-- The fuelled decoder recovers an all-ASCII byte list exactly. -/
theorem utf8DecodeFuel_ascii (fuel : ℕ) (v : List ℕ) (hlen : v.length ≤ fuel)
    (h : ∀ c ∈ v, c < 128) : utf8DecodeFuel fuel v = some v := by
  induction fuel generalizing v with
  | zero =>
    cases v with
    | nil => rfl
    | cons c cs => simp at hlen
  | succ n ih =>
    cases v with
    | nil => rfl
    | cons c cs =>
      have step : utf8DecodeFuel (n + 1) (c :: cs) =
          match utf8DecodeOne (c :: cs) with
          | some (a, rest) => (utf8DecodeFuel n rest).map (fun l => a :: l)
          | none => none := rfl
      rw [step, utf8DecodeOne_ascii c (h c (List.mem_cons_self c cs)) cs]
      dsimp only
      rw [ih cs (by simp at hlen; omega)
        (fun x hx => h x (List.mem_cons_of_mem c hx))]
      rfl

/-- Python's UTF-8 decoder is the identity on ASCII byte strings. -/
theorem utf8Decode_ascii (v : List ℕ) (h : ∀ c ∈ v, c < 128) :
    utf8Decode v = some v :=
  utf8DecodeFuel_ascii v.length v le_rfl h

/-- to_bytes(1, 'big') of a value up to 255 is that single byte. -/
theorem natToBytes_one (n : ℕ) (h : n ≤ 255) : natToBytes n 1 = some [n] := by
  unfold natToBytes bigEndianDigits bigEndianDigits
  rw [if_pos (by norm_num; omega)]
  simp [Nat.mod_eq_of_lt (by omega : n < 256)]

/-- to_bytes(2, 'big') of a value up to 65535 is its two big-endian bytes. -/
theorem natToBytes_two (n : ℕ) (h : n ≤ 65535) :
    natToBytes n 2 = some [n / 256, n % 256] := by
  unfold natToBytes bigEndianDigits bigEndianDigits bigEndianDigits
  rw [if_pos (by norm_num; omega)]
  simp [Nat.mod_eq_of_lt (by omega : n / 256 < 256)]

/-- Parsing a well-formed signed payload splits it back into its token
bytes, the record bytes that were signed, and the signature. -/
theorem qrParse_wellformed (t s : List ℕ) (hi lo : ℕ)
    (hL : hi * 256 + lo = s.length) :
    qrParse (t.length :: (t ++ hi :: lo :: s)) =
      some (t, t.length :: t, s) := by
  have hlen : bytesToNat (pySlice (t.length :: (t ++ hi :: lo :: s)) 0 1) =
      t.length := by
    simp [pySlice, bytesToNat]
  have hdrop1 : (t.length :: (t ++ hi :: lo :: s)).drop 1 =
      t ++ hi :: lo :: s := rfl
  have htok : pySlice (t.length :: (t ++ hi :: lo :: s)) 1 (1 + t.length) =
      t := by
    simp only [pySlice, hdrop1, Nat.add_sub_cancel_left]
    exact List.take_left t (hi :: lo :: s)
  have hverify : pySlice (t.length :: (t ++ hi :: lo :: s)) 0 (1 + t.length) =
      t.length :: t := by
    simp only [pySlice, List.drop_zero, Nat.sub_zero, Nat.add_comm 1 t.length,
      List.take_succ_cons]
    rw [List.take_left t (hi :: lo :: s)]
  have hdropn : (t.length :: (t ++ hi :: lo :: s)).drop (1 + t.length) =
      hi :: lo :: s := by
    rw [Nat.add_comm 1 t.length, List.drop_succ_cons]
    exact List.drop_left t (hi :: lo :: s)
  have hsiglen : bytesToNat (pySlice (t.length :: (t ++ hi :: lo :: s))
      (1 + t.length) (1 + t.length + 2)) = s.length := by
    simp only [pySlice, hdropn, Nat.add_sub_cancel_left]
    simp [bytesToNat, List.take_succ_cons]
    omega
  have hdrops : (t.length :: (t ++ hi :: lo :: s)).drop (1 + t.length + 2) =
      s := by
    rw [← List.drop_drop 2 (1 + t.length), hdropn]
    rfl
  have hsig : pySlice (t.length :: (t ++ hi :: lo :: s))
      (1 + t.length + 2) (1 + t.length + 2 + s.length) = s := by
    simp only [pySlice, Nat.add_sub_cancel_left, hdrops, List.take_length]
  simp only [qrParse, hlen, htok, hverify, hsiglen, hsig]

/-! ## C3: serialization round trip -/

/-- C3 counterexample: the single-character value "é" (code point 233, whose
UTF-8 encoding [195, 169] is 2 bytes, within the claimed 0-255 byte range)
with the empty signature does not round-trip.  getByteArray writes the
character count 1 as the prefix but the 2-byte UTF-8 encoding as payload, so
the parser takes [195] as the token (which is not decodable UTF-8), reads the
signature length from the byte 169 onward as 43264, and returns the clamped
signature [0] instead of the attached empty signature. -/
theorem roundtrip_cex :
    getByteArray [233] = some [1, 195, 169] ∧
      attachSignature [1, 195, 169] [] = some [1, 195, 169, 0, 0] ∧
      qrParse [1, 195, 169, 0, 0] = some ([195], [1, 195], [0]) ∧
      utf8Decode [195] = none ∧ ([0] : List ℕ) ≠ ([] : List ℕ) := by
  decide

/-- C3 amended: for every text value made of ASCII characters only (so that
the character count written by getByteArray equals the UTF-8 byte count) of
at most 255 characters, and every signature of at most 65535 bytes, encoding,
attaching the signature, and parsing the signed payload recovers exactly the
pair (value, signature). -/
theorem serializer_roundtrip (v s : List ℕ) (hv : ∀ c ∈ v, c < 128)
    (hvlen : v.length ≤ 255) (hslen : s.length ≤ 65535) :
    getByteArray v = some (v.length :: v) ∧
      attachSignature (v.length :: v) s =
        some (v.length :: (v ++ s.length / 256 :: s.length % 256 :: s)) ∧
      qrParse (v.length :: (v ++ s.length / 256 :: s.length % 256 :: s)) =
        some (v, v.length :: v, s) ∧
      utf8Decode v = some v := by
  have henc := utf8Encode_ascii v hv
  have hscalar : v.all isUtf8Scalar = true := by
    rw [List.all_eq_true]
    intro c hc
    have := hv c hc
    simp only [isUtf8Scalar, decide_eq_true_eq]
    omega
  refine ⟨?_, ?_, ?_, utf8Decode_ascii v hv⟩
  · unfold getByteArray
    rw [natToBytes_one v.length hvlen]
    dsimp only
    rw [if_pos hscalar, henc]
    rfl
  · unfold attachSignature
    rw [natToBytes_two s.length hslen]
    dsimp only
    simp [List.append_assoc]
  · exact qrParse_wellformed v s (s.length / 256) (s.length % 256)
      (by omega)

/-- Witness: the round trip on the ASCII value "hi" with signature bytes
[9, 8, 7]. -/
theorem serializer_roundtrip_witness :
    getByteArray [104, 105] = some ([104, 105].length :: [104, 105]) ∧
      attachSignature ([104, 105].length :: [104, 105]) [9, 8, 7] =
        some ([104, 105].length :: ([104, 105] ++
          [9, 8, 7].length / 256 :: [9, 8, 7].length % 256 :: [9, 8, 7])) ∧
      qrParse ([104, 105].length :: ([104, 105] ++
          [9, 8, 7].length / 256 :: [9, 8, 7].length % 256 :: [9, 8, 7])) =
        some ([104, 105], [104, 105].length :: [104, 105], [9, 8, 7]) ∧
      utf8Decode [104, 105] = some [104, 105] :=
  serializer_roundtrip [104, 105] [9, 8, 7] (by decide) (by decide) (by decide)

/-! ## C5: parsing truncated input -/

/-- C5 counterexample: the one-byte input [5] declares a 5-byte token but
provides none; the claim says parsing must fail with MalformedRecordError,
yet QR_data.__init__ returns a result — Python slicing clamps every
out-of-range slice, yielding the empty token, record [5] and empty
signature. -/
theorem parse_truncated_cex :
    bytesToNat (pySlice [5] 0 1) = 5 ∧ ([5] : List ℕ).length = 1 ∧
      qrParse [5] ≠ none ∧ qrParse [5] = some ([], [5], []) := by
  decide

/-- C5 amended: parsing never fails on any input, truncated, trailing or
otherwise: QR_data.__init__ always returns a result, and clamping means the
returned token has at most the declared length and never more bytes than the
input holds. -/
theorem parse_total (raw : List ℕ) :
    ∃ tok ver sig, qrParse raw = some (tok, ver, sig) ∧
      tok.length ≤ bytesToNat (pySlice raw 0 1) ∧ tok.length ≤ raw.length := by
  refine ⟨pySlice raw 1 (1 + bytesToNat (pySlice raw 0 1)), _, _, rfl, ?_, ?_⟩
  · simp only [pySlice, List.length_take, List.length_drop]
    omega
  · simp only [pySlice, List.length_take, List.length_drop]
    omega

/-! ## C6: overflow boundaries -/

set_option maxRecDepth 4000 in
/-- C6 counterexample: a string of 128 copies of "é" has UTF-8 byte length
256 > 255, so by the claim encoding must fail with OverflowError, but
getByteArray succeeds: the length prefix records the character count 128,
not the UTF-8 byte count. -/
theorem overflow_boundaries_cex :
    ¬ ((getByteArray (List.replicate 128 233)).isSome ↔
      (utf8Encode (List.replicate 128 233)).length ≤ 255) := by
  decide

/-- C6 amended: for values made of Unicode scalar code points, getByteArray
fails with OverflowError exactly when the number of characters exceeds 255
(succeeding at exactly 255 characters), and attachSignature fails with
OverflowError exactly when the signature exceeds 65535 bytes (succeeding at
exactly 65535). -/
theorem overflow_boundaries (v rec s : List ℕ)
    (hv : ∀ c ∈ v, isUtf8Scalar c = true) :
    ((getByteArray v).isSome ↔ v.length ≤ 255) ∧
      ((attachSignature rec s).isSome ↔ s.length ≤ 65535) := by
  constructor
  · unfold getByteArray natToBytes
    by_cases h : v.length < 256 ^ 1
    · rw [if_pos h]
      dsimp only
      rw [if_pos (List.all_eq_true.mpr hv)]
      simp only [Option.isSome_some, true_iff]
      omega
    · rw [if_neg h]
      simp only [Option.isSome_none, Bool.false_eq_true, false_iff]
      omega
  · unfold attachSignature natToBytes
    by_cases h : s.length < 256 ^ 2
    · rw [if_pos h]
      simp only [Option.isSome_some, true_iff]
      omega
    · rw [if_neg h]
      simp only [Option.isSome_none, Bool.false_eq_true, false_iff]
      omega

/-- Witness: the overflow boundaries applied to the ASCII value "0" and a
one-byte signature. -/
theorem overflow_boundaries_witness :
    ((getByteArray [48]).isSome ↔ ([48] : List ℕ).length ≤ 255) ∧
      ((attachSignature [1, 48] [9]).isSome ↔ ([9] : List ℕ).length ≤ 65535) :=
  overflow_boundaries [48] [1, 48] [9] (by decide)

/-! ## C4: the bias estimator -/

/-- On lists of binary values, np.count_nonzero counts the ones, i.e. the
tokens equal to the target class 1. -/
theorem countNonzero_eq_count_one (l : List ℕ) (h : ∀ b ∈ l, b ≤ 1) :
    countNonzero l = l.count 1 := by
  induction l with
  | nil => rfl
  | cons b t ih =>
    have hb : b ≤ 1 := h b (List.mem_cons_self b t)
    have ht := ih (fun x hx => h x (List.mem_cons_of_mem b hx))
    interval_cases b
    · simpa [countNonzero, List.count_cons] using ht
    · simpa [countNonzero, List.count_cons] using ht

/-- Every simulated token is 0 or 1. -/
theorem userToken_le_one (d : UserDraw) : userToken d ≤ 1 := by
  unfold userToken output_token userStatus
  cases d.coin0 <;> cases d.coin1 <;> cases d.statusCoin <;> simp

/-- C4: for at least one sample, simulate_DPHT returns the absolute error
between the true rate and the raw estimate (x - minProb)/(maxProb - minProb)
with minProb = 1/(exp(epsilon)+k-1), maxProb = exp(epsilon)*minProb and x the
observed fraction of tokens equal to the target class 1; and the raw value is
used unclipped — on the concrete single-user input whose token is 0 (at
epsilon = 1, k = 2) the estimate is negative, outside [0, 1]. -/
theorem estimator_formula (draws : List UserDraw) (ε : ℝ) (k : ℕ)
    (h : 1 ≤ draws.length) :
    simulate_DPHT draws ε k =
      .ok |(countNonzero (draws.map userStatus) : ℝ) / (draws.length : ℝ) -
        (((draws.map userToken).count 1 : ℝ) / (draws.length : ℝ) -
            1 / (Real.exp ε + k - 1)) /
          (Real.exp ε * (1 / (Real.exp ε + k - 1)) -
            1 / (Real.exp ε + k - 1))| ∧
      dpht_estimate [0] 1 2 < 0 := by
  constructor
  · have htok : ∀ b ∈ draws.map userToken, b ≤ 1 := by
      intro b hb
      obtain ⟨d, _, rfl⟩ := List.mem_map.mp hb
      exact userToken_le_one d
    unfold simulate_DPHT
    rw [if_neg (by omega)]
    dsimp only
    unfold dpht_estimate
    rw [countNonzero_eq_count_one (draws.map userToken) htok]
    simp only [List.length_map]
  · have hE : 2 ≤ Real.exp 1 := by
      have h1 := Real.add_one_le_exp (1 : ℝ)
      linarith
    have hrw : dpht_estimate [0] 1 2 =
        (0 / 1 - 1 / (Real.exp 1 + 2 - 1)) /
          (Real.exp 1 * (1 / (Real.exp 1 + 2 - 1)) -
            1 / (Real.exp 1 + 2 - 1)) := by
      unfold dpht_estimate countNonzero
      norm_num
    rw [hrw]
    have hD : (0 : ℝ) < Real.exp 1 + 2 - 1 := by linarith
    apply div_neg_of_neg_of_pos
    · have hm : (0 : ℝ) < 1 / (Real.exp 1 + 2 - 1) := div_pos one_pos hD
      linarith
    · rw [mul_one_div, div_sub_div_same]
      exact div_pos (by linarith) hD

/-- Witness: the unclipped estimate on the single-user input with token 0 at
epsilon = 1, k = 2. -/
theorem estimator_formula_witness : dpht_estimate [0] 1 2 < 0 :=
  (estimator_formula [⟨false, false, false⟩] 1 2 (by decide)).2

/-! ## C7: verification failure handling -/

/-- C7: pyOpenSSL's crypto.verify raises crypto.Error whenever the signature
does not validate, so verify_signature propagates an exception on any
cryptographic mismatch and its return-False branch is unreachable: False is
never returned as a normal value, contradicting the claim. -/
theorem verify_raises_on_mismatch :
    verify_signature true = .ok true ∧
      verify_signature false = .error PyErr.cryptoError := by
  constructor <;> rfl

/-! ## C9: zero samples -/

/-- C9: with nUsers = 0 the division on line 129 of Generate_QR_Token.py has
the divisor float(0), so simulate_DPHT raises an uncaught ZeroDivisionError
instead of detecting the degenerate input and reporting it. -/
theorem simulate_zero_users_raises (ε : ℝ) (k : ℕ) :
    simulate_DPHT [] ε k = .error PyErr.zeroDivisionError := rfl

end DPHT
